import Mathlib

/-!
Verification of the session/authentication core of the rn-expo-boilerplate
repository: the MMKV key-value adapters (`src/lib/mmkv.ts`), the keyed
storage utilities (`src/utils/storage.ts`), the Zustand auth store
(`src/stores` auth section) and the route guard
(`src/hooks/useProtectedRoute.ts`), shallowly embedded in Lean.

JavaScript runtime values that flow through the storage layer are modelled
by the inductive type `JsonVal` (numbers restricted to integers; the code
under verification never relies on fractional values).  `JSON.stringify` /
`JSON.parse` are modelled by the executable `jstringify` / `jparse` pair
below; strings are escaped exactly for the quote and backslash characters,
which is faithful up to the encoding of control characters (irrelevant to
every claim considered).
-/

/-- A JSON-representable JavaScript runtime value. -/
inductive JsonVal where
  | null : JsonVal
  | bool (b : Bool) : JsonVal
  | num (n : Int) : JsonVal
  | str (s : String) : JsonVal
  | arr (elems : List JsonVal) : JsonVal
  | obj (fields : List (String × JsonVal)) : JsonVal
deriving Repr

/-- Decimal digit to character. -/
def digitToChar : Nat → Char
  | 0 => '0' | 1 => '1' | 2 => '2' | 3 => '3' | 4 => '4'
  | 5 => '5' | 6 => '6' | 7 => '7' | 8 => '8' | _ => '9'

/-- Fuel-driven most-significant-first decimal printer. -/
def natCharsAux : Nat → Nat → List Char
  | 0, _ => []
  | fuel + 1, n => if n = 0 then [] else natCharsAux fuel (n / 10) ++ [digitToChar (n % 10)]

/-- Decimal representation of a natural number, as JavaScript prints it. -/
def natChars (n : Nat) : List Char :=
  if n = 0 then ['0'] else natCharsAux n n

/-- Decimal representation of an integer, as JavaScript prints it. -/
def intChars (n : Int) : List Char :=
  if n < 0 then '-' :: natChars n.natAbs else natChars n.toNat

/-- Decimal string of a natural number (used for `Date.now()` string coercions). -/
def numToString (n : Nat) : String := String.mk (natChars n)

/-- `JSON.stringify` string escaping (quote and backslash). -/
def escChars : List Char → List Char
  | [] => []
  | c :: cs => if c = '"' ∨ c = '\\' then '\\' :: c :: escChars cs else c :: escChars cs

mutual

/-- Characters of `JSON.stringify` applied to a value. -/
def jchars : JsonVal → List Char
  | .null => "null".data
  | .bool b => if b then "true".data else "false".data
  | .num n => intChars n
  | .str s => '"' :: escChars s.data ++ ['"']
  | .arr es => '[' :: elemChars es ++ [']']
  | .obj fs => '\x7b' :: fieldChars fs ++ ['\x7d']

/-- Comma-separated stringified array elements. -/
def elemChars : List JsonVal → List Char
  | [] => []
  | [e] => jchars e
  | e :: es => jchars e ++ ',' :: elemChars es

/-- Comma-separated stringified object fields. -/
def fieldChars : List (String × JsonVal) → List Char
  | [] => []
  | [(k, v)] => ('"' :: escChars k.data ++ ['"', ':']) ++ jchars v
  | (k, v) :: fs => (('"' :: escChars k.data ++ ['"', ':']) ++ jchars v) ++ ',' :: fieldChars fs

end

/-- Model of `JSON.stringify` on JSON-representable values. -/
def jstringify (v : JsonVal) : String := String.mk (jchars v)

/-- Consume an expected literal suffix. -/
def expectLit : List Char → List Char → Option (List Char)
  | [], input => some input
  | c :: cs, input =>
    match input with
    | [] => none
    | d :: rest => if d = c then expectLit cs rest else none

/-- Parse the body of a JSON string literal (after the opening quote);
returns the unescaped characters and the input following the closing quote. -/
def parseStrBody : List Char → Option (List Char × List Char)
  | [] => none
  | ['\\'] => none
  | '\\' :: d :: rest2 => (parseStrBody rest2).map fun p => (d :: p.1, p.2)
  | c :: rest =>
    if c = '"' then some ([], rest)
    else (parseStrBody rest).map fun p => (c :: p.1, p.2)

/-- Value of a most-significant-first list of decimal digit characters. -/
def digitsToNat (ds : List Char) : Nat :=
  ds.foldl (fun a c => a * 10 + (c.toNat - 48)) 0

/-- Parse a nonempty run of decimal digits. -/
def parseDigits (input : List Char) : Option (Nat × List Char) :=
  let ds := input.takeWhile Char.isDigit
  if ds.isEmpty then none
  else some (digitsToNat ds, input.dropWhile Char.isDigit)

mutual

/-- Fuel-driven JSON value parser. -/
def parseV : Nat → List Char → Option (JsonVal × List Char)
  | 0, _ => none
  | _ + 1, [] => none
  | fuel + 1, c :: rest =>
    if c = 'n' then (expectLit ['u', 'l', 'l'] rest).map fun r => (.null, r)
    else if c = 't' then (expectLit ['r', 'u', 'e'] rest).map fun r => (.bool true, r)
    else if c = 'f' then (expectLit ['a', 'l', 's', 'e'] rest).map fun r => (.bool false, r)
    else if c = '"' then (parseStrBody rest).map fun p => (.str (String.mk p.1), p.2)
    else if c = '[' then
      if rest.head? = some ']' then some (.arr [], rest.tail)
      else (parseElems fuel rest).map fun p => (.arr p.1, p.2)
    else if c = '\x7b' then
      if rest.head? = some '\x7d' then some (.obj [], rest.tail)
      else (parseFields fuel rest).map fun p => (.obj p.1, p.2)
    else if c = '-' then (parseDigits rest).map fun p => (.num (-(p.1 : Int)), p.2)
    else if c.isDigit then (parseDigits (c :: rest)).map fun p => (.num (p.1 : Int), p.2)
    else none

/-- Parse a nonempty comma-separated element list up to the closing bracket. -/
def parseElems : Nat → List Char → Option (List JsonVal × List Char)
  | 0, _ => none
  | fuel + 1, input =>
    (parseV fuel input).bind fun p =>
      if p.2.head? = some ',' then
        (parseElems fuel p.2.tail).map fun q => (p.1 :: q.1, q.2)
      else if p.2.head? = some ']' then some ([p.1], p.2.tail)
      else none

/-- Parse a nonempty comma-separated field list up to the closing brace. -/
def parseFields : Nat → List Char → Option (List (String × JsonVal) × List Char)
  | 0, _ => none
  | _ + 1, [] => none
  | fuel + 1, c :: rest =>
    if c = '"' then
      (parseStrBody rest).bind fun kp =>
        if kp.2.head? = some ':' then
          (parseV fuel kp.2.tail).bind fun vp =>
            if vp.2.head? = some ',' then
              (parseFields fuel vp.2.tail).map fun q => ((String.mk kp.1, vp.1) :: q.1, q.2)
            else if vp.2.head? = some '\x7d' then some ([(String.mk kp.1, vp.1)], vp.2.tail)
            else none
        else none
    else none

end

/-- Model of `JSON.parse`: succeeds exactly when the whole string is one JSON value. -/
def jparse (s : String) : Option JsonVal :=
  match parseV (s.data.length + 1) s.data with
  | some (v, []) => some v
  | _ => none

mutual

/-- Parsing fuel needed for a value. -/
def jsize : JsonVal → Nat
  | .null => 1
  | .bool _ => 1
  | .num _ => 1
  | .str _ => 1
  | .arr es => 1 + jsizeL es
  | .obj fs => 1 + jsizeF fs

/-- Parsing fuel needed for an element list. -/
def jsizeL : List JsonVal → Nat
  | [] => 1
  | e :: es => jsize e + jsizeL es

/-- Parsing fuel needed for a field list. -/
def jsizeF : List (String × JsonVal) → Nat
  | [] => 1
  | kv :: fs => jsize kv.2 + jsizeF fs

end

/-- The input that follows a printed value never starts with a digit. -/
def noDigitHead (rest : List Char) : Prop :=
  ∀ c, rest.head? = some c → c.isDigit = false

/-- A value slot of the embedded MMKV engine: the engine stores strings,
numbers and booleans in distinct typed slots (`src/lib/mmkv.ts` relies on
`storage.set` overloads and `storage.getString`). -/
inductive EngineVal where
  | str (s : String) : EngineVal
  | num (n : Int) : EngineVal
  | bool (b : Bool) : EngineVal
deriving Repr

/-- State of the standard-namespace MMKV instance (`storage`). -/
def StdStore : Type := String → Option EngineVal

/-- State of the secure-namespace MMKV instance (`secureStorage`); the
secure wrapper only ever stores strings. -/
def SecStore : Type := String → Option String

/-- Point update of a keyed store. -/
def mapUpdate {α : Type} (key : String) (v : Option α) (σ : String → Option α) :
    String → Option α :=
  fun k => if k = key then v else σ k

/-- `storage.getString key`: only the string slot is read. -/
def stdGetString (key : String) (σ : StdStore) : Option String :=
  match σ key with
  | some (.str s) => some s
  | _ => none

/-- The empty standard namespace. -/
def emptyStd : StdStore := fun _ => none

/-- The empty secure namespace. -/
def emptySec : SecStore := fun _ => none

namespace mmkvStorage

/-- `mmkvStorage.setItem` (src/lib/mmkv.ts): strings, numbers and booleans
go through the engine's typed setters; any other value is JSON-stringified
(JavaScript `typeof null` is `"object"`, so `null` also takes that branch). -/
def setItem (key : String) (value : JsonVal) (σ : StdStore) : StdStore :=
  match value with
  | .str s => mapUpdate key (some (EngineVal.str s)) σ
  | .num n => mapUpdate key (some (EngineVal.num n)) σ
  | .bool b => mapUpdate key (some (EngineVal.bool b)) σ
  | _ => mapUpdate key (some (EngineVal.str (jstringify value))) σ

/-- `mmkvStorage.getItem` (src/lib/mmkv.ts): reads the engine's string slot;
absent → fallback (or null); otherwise JSON-parse with raw-string fallback. -/
def getItem (key : String) (fallback : Option JsonVal) (σ : StdStore) : Option JsonVal :=
  match stdGetString key σ with
  | none => fallback
  | some s =>
    match jparse s with
    | some v => some v
    | none => some (.str s)

/-- `mmkvStorage.removeItem` (src/lib/mmkv.ts). -/
def removeItem (key : String) (σ : StdStore) : StdStore :=
  mapUpdate key none σ

end mmkvStorage

namespace secureMMKVStorage

/-- `secureMMKVStorage.setItem` (src/lib/mmkv.ts): strings are stored raw,
everything else is JSON-stringified. -/
def setItem (key : String) (value : JsonVal) (σ : SecStore) : SecStore :=
  match value with
  | .str s => mapUpdate key (some s) σ
  | _ => mapUpdate key (some (jstringify value)) σ

/-- `secureMMKVStorage.getItem` (src/lib/mmkv.ts). -/
def getItem (key : String) (fallback : Option JsonVal) (σ : SecStore) : Option JsonVal :=
  match σ key with
  | none => fallback
  | some s =>
    match jparse s with
    | some v => some v
    | none => some (.str s)

/-- `secureMMKVStorage.removeItem` (src/lib/mmkv.ts). -/
def removeItem (key : String) (σ : SecStore) : SecStore :=
  mapUpdate key none σ

end secureMMKVStorage

namespace Mmkv

/-- `StorageKeys` of src/lib/mmkv.ts (used by the auth store). -/
def StorageKeys.AUTH_TOKEN : String := "@auth_token"

def StorageKeys.USER_DATA : String := "@user_data"

def StorageKeys.REFRESH_TOKEN : String := "@refresh_token"

def StorageKeys.THEME_MODE : String := "@theme_mode"

def StorageKeys.BIOMETRIC_ENABLED : String := "@biometric_enabled"

end Mmkv

namespace Types

/-- `StorageKeys` enum of src/types/common.ts (used by src/utils/storage.ts). -/
def StorageKeys.AUTH_TOKEN : String := "auth_token"

def StorageKeys.USER_DATA : String := "user_data"

def StorageKeys.THEME : String := "theme"

def StorageKeys.LANGUAGE : String := "language"

def StorageKeys.ONBOARDING_COMPLETED : String := "onboarding_completed"

def StorageKeys.BIOMETRIC_ENABLED : String := "biometric_enabled"

def StorageKeys.REFRESH_TOKEN : String := "refresh_token"

end Types

/-- `safeJsonStringify` (src/utils/helpers.ts): `JSON.stringify` never throws
on JSON-representable values (no cycles are representable), so this is total. -/
def safeJsonStringify (v : JsonVal) : Option String := some (jstringify v)

/-- `safeJsonParse` (src/utils/helpers.ts). -/
def safeJsonParse (s : String) (fallback : JsonVal) : JsonVal :=
  (jparse s).getD fallback

mutual

/-- JavaScript `String(v)` coercion of a runtime value (used when
`JSON.parse` receives a non-string argument). -/
def jsToString : JsonVal → String
  | .null => "null"
  | .bool true => "true"
  | .bool false => "false"
  | .num n => String.mk (intChars n)
  | .str s => s
  | .arr es => joinElems es
  | .obj _ => "[object Object]"

/-- JavaScript `Array.prototype.toString` joining (null elements coerce to ""). -/
def joinElems : List JsonVal → String
  | [] => ""
  | [JsonVal.null] => ""
  | [e] => jsToString e
  | JsonVal.null :: es => "," ++ joinElems es
  | e :: es => jsToString e ++ "," ++ joinElems es

end

/-- Both MMKV namespaces together, as used by src/utils/storage.ts. -/
def Stores : Type := StdStore × SecStore

/-- `isSecureKey` (src/utils/storage.ts): the fixed allow-list of keys that
are routed to the secure namespace. -/
def isSecureKey (key : String) : Bool :=
  key = Types.StorageKeys.AUTH_TOKEN ∨ key = Types.StorageKeys.REFRESH_TOKEN ∨
    key = Types.StorageKeys.USER_DATA ∨ key = Types.StorageKeys.BIOMETRIC_ENABLED

/-- `setStorageItem` (src/utils/storage.ts): non-strings are stringified
first, so the chosen namespace always receives a string; returns success. -/
def setStorageItem (key : String) (value : JsonVal) (p : Stores) : Bool × Stores :=
  let stringValue : String :=
    match value with
    | .str s => s
    | _ => jstringify value
  if isSecureKey key then
    (true, (p.1, secureMMKVStorage.setItem key (.str stringValue) p.2))
  else
    (true, (mmkvStorage.setItem key (.str stringValue) p.1, p.2))

/-- `getStorageItem` (src/utils/storage.ts): reads through the generic
adapter `getItem` (which already JSON-parses); if the stored value is absent
the fallback is returned; a string-typed fallback returns the adapter value
as-is, otherwise the value is `safeJsonParse`d again after JavaScript string
coercion. -/
def getStorageItem (key : String) (fallback : JsonVal) (p : Stores) : JsonVal :=
  let value : Option JsonVal :=
    if isSecureKey key then secureMMKVStorage.getItem key none p.2
    else mmkvStorage.getItem key none p.1
  match value with
  | none => fallback
  | some v =>
    match fallback with
    | .str _ => v
    | _ => safeJsonParse (jsToString v) fallback

/-- `removeStorageItem` (src/utils/storage.ts). -/
def removeStorageItem (key : String) (p : Stores) : Bool × Stores :=
  if isSecureKey key then
    (true, (p.1, secureMMKVStorage.removeItem key p.2))
  else
    (true, (mmkvStorage.removeItem key p.1, p.2))

/-- `hasStorageItem` (src/utils/storage.ts): present iff the generic read is
neither null nor undefined. -/
def hasStorageItem (key : String) (p : Stores) : Bool :=
  let value : Option JsonVal :=
    if isSecureKey key then secureMMKVStorage.getItem key none p.2
    else mmkvStorage.getItem key none p.1
  value.isSome

/-- `ERROR_MESSAGES.AUTH.INVALID_CREDENTIALS` (src/constants/app.ts). -/
def ERROR_MESSAGES.AUTH.INVALID_CREDENTIALS : String := "Username atau password salah."

/-- `ROUTES.AUTH.SIGNIN` (src/constants/app.ts). -/
def ROUTES.AUTH.SIGNIN : String := "/(auth)/signin"

/-- `ROUTES.TABS.HOME` (src/constants/app.ts). -/
def ROUTES.TABS.HOME : String := "/(tabs)"

/-- `LoginCredentials` (src/types/auth.ts). -/
structure LoginCredentials where
  username : String
  password : String
deriving Repr, DecidableEq

/-- `RegisterCredentials` (src/types/auth.ts). -/
structure RegisterCredentials where
  username : String
  email : String
  password : String
  confirmPassword : String
  firstName : Option String
  lastName : Option String
deriving Repr, DecidableEq

/-- `AuthState` (src/stores, auth section).  The `user` field holds the
runtime user object (a parsed JSON value) or null; TypeScript types are
erased at runtime, so the store can hold whatever the storage read produced. -/
structure AuthState where
  user : Option JsonVal
  isLoading : Bool
  isAuthenticated : Bool
  error : Option String
  isInitialized : Bool
deriving Repr

/-- Initial state of the auth store. -/
def authInitialState : AuthState :=
  { user := none, isLoading := false, isAuthenticated := false,
    error := none, isInitialized := false }

namespace mockAuthAPI

/-- The user object constructed by `mockAuthAPI.login` on success;
`nowISO` stands for `new Date().toISOString()`. -/
def loginUser (username : String) (nowISO : String) : JsonVal :=
  .obj [("id", .str "1"), ("username", .str username),
        ("email", .str "admin@example.com"), ("firstName", .str "Admin"),
        ("lastName", .str "User"), ("avatar", .null), ("role", .str "admin"),
        ("isEmailVerified", .bool true), ("createdAt", .str nowISO),
        ("updatedAt", .str nowISO)]

/-- `mockAuthAPI.login` (src/stores, auth section): accepts exactly the pair
admin/password; `now` stands for `Date.now()`.  The `await delay(1500)` has
no observable effect in this single-operation model. -/
def login (credentials : LoginCredentials) (now : Nat) (nowISO : String) :
    Except String (JsonVal × String) :=
  if credentials.username = "admin" ∧ credentials.password = "password" then
    .ok (loginUser credentials.username nowISO, "mock-jwt-token-" ++ numToString now)
  else
    .error ERROR_MESSAGES.AUTH.INVALID_CREDENTIALS

/-- The user object constructed by `mockAuthAPI.register` on success
(`firstName`/`lastName` properties hold `undefined` when absent, which
`JSON.stringify` drops; they are modelled as omitted fields). -/
def registerUser (credentials : RegisterCredentials) (now : Nat) (nowISO : String) : JsonVal :=
  .obj ([("id", .str (numToString now)), ("username", .str credentials.username),
         ("email", .str credentials.email)] ++
        (match credentials.firstName with
         | some f => [("firstName", JsonVal.str f)]
         | none => []) ++
        (match credentials.lastName with
         | some l => [("lastName", JsonVal.str l)]
         | none => []) ++
        [("avatar", .null), ("role", .str "user"), ("isEmailVerified", .bool false),
         ("createdAt", .str nowISO), ("updatedAt", .str nowISO)])

/-- `mockAuthAPI.register` (src/stores, auth section): the username-length
and password-confirmation checks live INSIDE this mocked remote call, after
its simulated `delay(2000)`. -/
def register (credentials : RegisterCredentials) (now : Nat) (nowISO : String) :
    Except String (JsonVal × String) :=
  if credentials.username.length < 3 then
    .error "Username must be at least 3 characters"
  else if credentials.password ≠ credentials.confirmPassword then
    .error "Passwords do not match"
  else
    .ok (registerUser credentials now nowISO, "mock-jwt-token-" ++ numToString now)

/-- `mockAuthAPI.forgotPassword` (src/stores, auth section). -/
def forgotPassword (email : String) : Except String Bool :=
  if email.contains '@' then .ok true else .error "Invalid email address"

end mockAuthAPI

/-- Events observable while an auth-store operation runs; used to record
whether the mocked remote authenticator was contacted. -/
inductive AuthEvent where
  | remoteRegisterCall : AuthEvent
deriving Repr, DecidableEq

namespace AuthStore

/-- `setLoading` (src/stores, auth section). -/
def setLoading (loading : Bool) (s : AuthState) : AuthState :=
  { s with isLoading := loading }

/-- `setUser` (src/stores, auth section): `isAuthenticated := !!user`. -/
def setUser (user : Option JsonVal) (s : AuthState) : AuthState :=
  { s with user := user, isAuthenticated := user.isSome }

/-- `setError` (src/stores, auth section). -/
def setError (error : Option String) (s : AuthState) : AuthState :=
  { s with error := error }

/-- `clearError` (src/stores, auth section). -/
def clearError (s : AuthState) : AuthState :=
  { s with error := none }

/-- JavaScript truthiness of the value produced by a storage read
(`if (token && userData)` in `initializeAuth`). -/
def jsTruthy : Option JsonVal → Bool
  | none => false
  | some .null => false
  | some (.bool b) => b
  | some (.num n) => !(n == 0)
  | some (.str s) => !(s == "")
  | some (.arr _) => true
  | some (.obj _) => true

/-- `initializeAuth` (src/stores, auth section).  Returns the new state and
the list of secure-storage keys that were read.  The early `isInitialized`
guard returns without touching storage; otherwise both keys are read and the
session is restored only when both reads are truthy.  The `finally` block
clears `isLoading` and sets `isInitialized`. -/
def initializeAuth (s : AuthState) (sec : SecStore) : AuthState × List String :=
  if s.isInitialized then (s, [])
  else
    let s0 := { s with isLoading := true }
    let token := secureMMKVStorage.getItem Mmkv.StorageKeys.AUTH_TOKEN none sec
    let userData := secureMMKVStorage.getItem Mmkv.StorageKeys.USER_DATA none sec
    let s1 :=
      if jsTruthy token && jsTruthy userData then
        { s0 with user := userData, isAuthenticated := true, error := none }
      else
        { s0 with user := none, isAuthenticated := false, error := none }
    ({ s1 with isLoading := false, isInitialized := true },
     [Mmkv.StorageKeys.AUTH_TOKEN, Mmkv.StorageKeys.USER_DATA])

/-- `login` (src/stores, auth section): on success persists the token and the
stringified user to the secure namespace and sets the authenticated state; on
failure records the thrown message; `finally` clears `isLoading`. -/
def login (credentials : LoginCredentials) (now : Nat) (nowISO : String)
    (s : AuthState) (sec : SecStore) : Bool × AuthState × SecStore :=
  let s0 := { s with isLoading := true, error := none }
  match mockAuthAPI.login credentials now nowISO with
  | .ok (user, token) =>
    let sec1 := secureMMKVStorage.setItem Mmkv.StorageKeys.AUTH_TOKEN (.str token) sec
    let sec2 := secureMMKVStorage.setItem Mmkv.StorageKeys.USER_DATA user sec1
    let s1 := { s0 with user := some user, isAuthenticated := true, error := none }
    (true, { s1 with isLoading := false }, sec2)
  | .error msg =>
    (false, { s0 with error := some msg, isLoading := false }, sec)

/-- `register` (src/stores, auth section): the mocked remote authenticator is
invoked unconditionally (the event trace records the call); validation errors
are whatever that remote call threw. -/
def register (credentials : RegisterCredentials) (now : Nat) (nowISO : String)
    (s : AuthState) (sec : SecStore) : Bool × AuthState × SecStore × List AuthEvent :=
  let s0 := { s with isLoading := true, error := none }
  let remote := mockAuthAPI.register credentials now nowISO
  let trace := [AuthEvent.remoteRegisterCall]
  match remote with
  | .ok (user, token) =>
    let sec1 := secureMMKVStorage.setItem Mmkv.StorageKeys.AUTH_TOKEN (.str token) sec
    let sec2 := secureMMKVStorage.setItem Mmkv.StorageKeys.USER_DATA user sec1
    let s1 := { s0 with user := some user, isAuthenticated := true, error := none }
    (true, { s1 with isLoading := false }, sec2, trace)
  | .error msg =>
    (false, { s0 with error := some msg, isLoading := false }, sec, trace)

/-- `logout` (src/stores, auth section).  The outcome of the mocked remote
logout call is a parameter: `.ok` models the remote call resolving, `.error`
models it throwing.  The storage removals and the state reset sit AFTER the
remote call inside the `try` block, so a throwing remote call skips them and
lands in the `catch`, which only records "Logout failed". -/
def logout (remote : Except String Unit) (s : AuthState) (sec : SecStore) :
    AuthState × SecStore :=
  let s0 := { s with isLoading := true }
  match remote with
  | .ok _ =>
    let sec1 := secureMMKVStorage.removeItem Mmkv.StorageKeys.AUTH_TOKEN sec
    let sec2 := secureMMKVStorage.removeItem Mmkv.StorageKeys.USER_DATA sec1
    let s1 := { s0 with user := none, isAuthenticated := false, error := none }
    ({ s1 with isLoading := false }, sec2)
  | .error _ =>
    ({ s0 with error := some "Logout failed", isLoading := false }, sec)

/-- `forgotPassword` (src/stores, auth section). -/
def forgotPassword (email : String) (s : AuthState) : Bool × AuthState :=
  let s0 := { s with isLoading := true, error := none }
  match mockAuthAPI.forgotPassword email with
  | .ok _ => (true, { s0 with isLoading := false })
  | .error msg => (false, { s0 with error := some msg, isLoading := false })

end AuthStore

/-- One invocation of an auth-store operation, with the data the environment
supplies (credentials, clock values, remote-logout outcome). -/
inductive AuthOp where
  | login (credentials : LoginCredentials) (now : Nat) (nowISO : String) : AuthOp
  | register (credentials : RegisterCredentials) (now : Nat) (nowISO : String) : AuthOp
  | logout (remote : Except String Unit) : AuthOp
  | forgotPassword (email : String) : AuthOp
  | initializeAuth : AuthOp
  | clearError : AuthOp
  | setUser (user : Option JsonVal) : AuthOp
  | setError (error : Option String) : AuthOp
  | setLoading (loading : Bool) : AuthOp

/-- Apply one operation to the store state and the secure namespace. -/
def applyOp : AuthOp → AuthState × SecStore → AuthState × SecStore
  | .login c now iso, (s, sec) =>
    let r := AuthStore.login c now iso s sec
    (r.2.1, r.2.2)
  | .register c now iso, (s, sec) =>
    let r := AuthStore.register c now iso s sec
    (r.2.1, r.2.2.1)
  | .logout remote, (s, sec) => AuthStore.logout remote s sec
  | .forgotPassword e, (s, sec) => ((AuthStore.forgotPassword e s).2, sec)
  | .initializeAuth, (s, sec) => ((AuthStore.initializeAuth s sec).1, sec)
  | .clearError, (s, sec) => (AuthStore.clearError s, sec)
  | .setUser u, (s, sec) => (AuthStore.setUser u s, sec)
  | .setError e, (s, sec) => (AuthStore.setError e s, sec)
  | .setLoading b, (s, sec) => (AuthStore.setLoading b s, sec)

/-- States reachable from the initial store state (any initial secure
namespace) by an arbitrary sequence of store operations. -/
inductive Reachable : AuthState × SecStore → Prop where
  | init (sec : SecStore) : Reachable (authInitialState, sec)
  | step (op : AuthOp) (p : AuthState × SecStore) : Reachable p → Reachable (applyOp op p)

/-- A navigation command of the expo router, as issued by the route guard. -/
inductive NavCmd where
  | replace (route : String) : NavCmd
  | push (route : String) : NavCmd
deriving Repr, DecidableEq

/-- The decision function of `useProtectedRoute` (src/hooks/useProtectedRoute.ts):
given the user, the loading flag, the current segments and the configured
allow-list of standalone pages, the command the effect issues (if any).
`segments[0]`/`segments[segments.length - 1]` on an empty array are
`undefined` in JavaScript, modelled by the `Option`-valued head/last. -/
def useProtectedRoute (user : Option JsonVal) (isLoading : Bool)
    (segments : List String) (allowedPages : List String) : Option NavCmd :=
  if isLoading then none
  else
    let inAuthGroup := segments.head? = some "(auth)"
    let inTabsGroup := segments.head? = some "(tabs)"
    let currentPage := segments.getLast?
    let onAllowedPage : Bool :=
      match currentPage with
      | some p => allowedPages.contains p
      | none => false
    if user.isNone ∧ ¬ inAuthGroup then some (.replace ROUTES.AUTH.SIGNIN)
    else if user.isSome ∧ inAuthGroup then some (.replace ROUTES.TABS.HOME)
    else if user.isSome ∧ ¬ inTabsGroup ∧ ¬ inAuthGroup ∧ onAllowedPage = false then
      some (.replace ROUTES.TABS.HOME)
    else none


/-- JavaScript `typeof v === "object"` (true for null, arrays and objects):
exactly the values that `mmkvStorage.setItem` JSON-stringifies. -/
def jsTypeofObject : JsonVal → Bool
  | .null => true
  | .arr _ => true
  | .obj _ => true
  | _ => false

/-- Property access `v[key]` on a runtime object value. -/
def jField (v : JsonVal) (key : String) : Option JsonVal :=
  match v with
  | .obj fs => (fs.find? (fun kv => kv.1 == key)).map (fun kv => kv.2)
  | _ => none

/-- A session state in which an admin user is logged in (used as a concrete
starting point for the logout claims). -/
def loggedInState : AuthState :=
  { user := some (mockAuthAPI.loginUser "admin" "2024-01-01T00:00:00.000Z"),
    isLoading := false, isAuthenticated := true, error := none, isInitialized := true }

/-- A secure namespace holding a token and the serialized admin user (the
contents produced by a successful login). -/
def loggedInSec : SecStore :=
  secureMMKVStorage.setItem Mmkv.StorageKeys.USER_DATA
    (mockAuthAPI.loginUser "admin" "2024-01-01T00:00:00.000Z")
    (secureMMKVStorage.setItem Mmkv.StorageKeys.AUTH_TOKEN
      (.str "mock-jwt-token-0") emptySec)

/-- Registration credentials whose password and confirmation differ. -/
def mismatchCredentials : RegisterCredentials :=
  { username := "abc", email := "a@b.com", password := "pw1",
    confirmPassword := "pw2", firstName := none, lastName := none }

/-- A secure namespace in which BOTH auth keys are present, but the token
entry holds the string "0", whose JSON parse is the falsy number 0. -/
def falsyTokenSec : SecStore :=
  secureMMKVStorage.setItem Mmkv.StorageKeys.AUTH_TOKEN (.str "0")
    (secureMMKVStorage.setItem Mmkv.StorageKeys.USER_DATA
      (mockAuthAPI.loginUser "admin" "2024-01-01T00:00:00.000Z") emptySec)

/-- A concrete structured value for the round-trip claims. -/
def sampleObj : JsonVal :=
  .obj [("a", .num 1), ("b", .arr [.null, .bool true, .str "x"]),
        ("c", .obj [("d", .num (-45))])]


/-- Membership-based induction principle for the nested inductive `JsonVal`. -/
theorem JsonVal.inductionOn (P : JsonVal → Prop)
    (h0 : P .null) (h1 : ∀ b, P (.bool b)) (h2 : ∀ n, P (.num n)) (h3 : ∀ s, P (.str s))
    (h4 : ∀ es, (∀ e ∈ es, P e) → P (.arr es))
    (h5 : ∀ fs, (∀ kv ∈ fs, P kv.2) → P (.obj fs)) : ∀ v, P v
  | .null => h0
  | .bool b => h1 b
  | .num n => h2 n
  | .str s => h3 s
  | .arr es => h4 es (fun e he => JsonVal.inductionOn P h0 h1 h2 h3 h4 h5 e)
  | .obj fs => h5 fs (fun kv hkv => JsonVal.inductionOn P h0 h1 h2 h3 h4 h5 kv.2)
termination_by v => sizeOf v
decreasing_by
  · have := List.sizeOf_lt_of_mem he
    simp only [JsonVal.arr.sizeOf_spec]
    omega
  · have h := List.sizeOf_lt_of_mem hkv
    obtain ⟨k, v⟩ := kv
    simp only [JsonVal.obj.sizeOf_spec, Prod.mk.sizeOf_spec] at *
    omega

theorem jsize_pos (v : JsonVal) : 1 ≤ jsize v := by
  cases v <;> simp [jsize]

theorem jsizeL_pos (es : List JsonVal) : 1 ≤ jsizeL es := by
  cases es with
  | nil => simp [jsizeL]
  | cons e es => have := jsize_pos e; simp [jsizeL]; omega

theorem jsizeF_pos (fs : List (String × JsonVal)) : 1 ≤ jsizeF fs := by
  cases fs with
  | nil => simp [jsizeF]
  | cons kv fs => have := jsize_pos kv.2; simp [jsizeF]; omega

theorem digitToChar_isDigit (d : Nat) : (digitToChar d).isDigit = true := by
  unfold digitToChar; split <;> decide

theorem digitToChar_toNat (d : Nat) (h : d < 10) : (digitToChar d).toNat - 48 = d := by
  interval_cases d <;> decide

theorem natCharsAux_isDigit :
    ∀ fuel n : Nat, ∀ c ∈ natCharsAux fuel n, c.isDigit = true := by
  intro fuel
  induction fuel with
  | zero => intro n c hc; simp [natCharsAux] at hc
  | succ f ih =>
    intro n c hc
    by_cases h0 : n = 0
    · simp [natCharsAux, h0] at hc
    · simp only [natCharsAux, if_neg h0, List.mem_append, List.mem_singleton] at hc
      rcases hc with hc | hc
      · exact ih _ c hc
      · subst hc; exact digitToChar_isDigit _

theorem digitsToNat_append_singleton (xs : List Char) (c : Char) :
    digitsToNat (xs ++ [c]) = digitsToNat xs * 10 + (c.toNat - 48) := by
  simp [digitsToNat, List.foldl_append]

theorem natCharsAux_val : ∀ fuel : Nat, ∀ n ≤ fuel, digitsToNat (natCharsAux fuel n) = n := by
  intro fuel
  induction fuel with
  | zero => intro n hn; interval_cases n; rfl
  | succ f ih =>
    intro n hn
    by_cases h0 : n = 0
    · simp [natCharsAux, h0, digitsToNat]
    · have hlt : n / 10 < n := Nat.div_lt_self (Nat.pos_of_ne_zero h0) (by norm_num)
      have hdiv : n / 10 ≤ f := by omega
      have hmod : n % 10 < 10 := Nat.mod_lt n (by norm_num)
      rw [natCharsAux, if_neg h0, digitsToNat_append_singleton, ih _ hdiv,
        digitToChar_toNat _ hmod]
      omega

theorem natChars_isDigit (n : Nat) : ∀ c ∈ natChars n, c.isDigit = true := by
  unfold natChars
  by_cases h0 : n = 0
  · simp [h0]
  · simp only [if_neg h0]
    exact natCharsAux_isDigit n n

theorem natChars_ne_nil (n : Nat) : natChars n ≠ [] := by
  unfold natChars
  by_cases h0 : n = 0
  · simp [h0]
  · simp only [if_neg h0]
    obtain ⟨m, rfl⟩ := Nat.exists_eq_succ_of_ne_zero h0
    simp [natCharsAux, h0]

theorem natChars_val (n : Nat) : digitsToNat (natChars n) = n := by
  unfold natChars
  by_cases h0 : n = 0
  · simp [h0]; decide
  · simp only [if_neg h0]
    exact natCharsAux_val n n le_rfl

theorem takeWhile_append_of (p : Char → Bool) (l rest : List Char)
    (hl : ∀ c ∈ l, p c = true) (hrest : ∀ c, rest.head? = some c → p c = false) :
    (l ++ rest).takeWhile p = l ∧ (l ++ rest).dropWhile p = rest := by
  induction l with
  | nil =>
    cases rest with
    | nil => simp
    | cons c t => simp [List.takeWhile_cons, List.dropWhile_cons, hrest c rfl]
  | cons c l ih =>
    have hc : p c = true := hl c (by simp)
    have ihl : ∀ x ∈ l, p x = true := fun x hx => hl x (by simp [hx])
    obtain ⟨h1, h2⟩ := ih ihl
    simp [List.takeWhile_cons, List.dropWhile_cons, hc, h1, h2]

theorem parseDigits_natChars (n : Nat) (rest : List Char)
    (hrest : ∀ c, rest.head? = some c → c.isDigit = false) :
    parseDigits (natChars n ++ rest) = some (n, rest) := by
  obtain ⟨ht, hd⟩ := takeWhile_append_of Char.isDigit (natChars n) rest (natChars_isDigit n) hrest
  have hne := natChars_ne_nil n
  simp [parseDigits, ht, hd, natChars_val n, List.isEmpty_iff, hne]

theorem expectLit_append (lit rest : List Char) : expectLit lit (lit ++ rest) = some rest := by
  induction lit with
  | nil => rfl
  | cons c cs ih => simp [expectLit, ih]

theorem parseStrBody_round (l rest : List Char) :
    parseStrBody (escChars l ++ '"' :: rest) = some (l, rest) := by
  induction l with
  | nil =>
    show parseStrBody ('"' :: rest) = some ([], rest)
    rfl
  | cons c cs ih =>
    by_cases hc : c = '"' ∨ c = '\\'
    · have : escChars (c :: cs) = '\\' :: c :: escChars cs := by
        simp [escChars, hc]
      rw [this]
      show (parseStrBody (escChars cs ++ '"' :: rest)).map _ = _
      rw [ih]
      rfl
    · push_neg at hc
      have : escChars (c :: cs) = c :: escChars cs := by
        simp [escChars, hc.1, hc.2]
      rw [this]
      rw [List.cons_append]
      simp [parseStrBody, hc.1, hc.2, ih]

theorem noDigitHead_nil : noDigitHead [] := by
  intro c h; simp at h

theorem noDigitHead_cons {c : Char} (t : List Char) (h : c.isDigit = false) :
    noDigitHead (c :: t) := by
  intro d hd
  simp at hd
  subst hd
  exact h

theorem isDigit_excludes {c : Char} (h : c.isDigit = true) :
    c ≠ 'n' ∧ c ≠ 't' ∧ c ≠ 'f' ∧ c ≠ '"' ∧ c ≠ '[' ∧ c ≠ '\x7b' ∧ c ≠ '-' := by
  refine ⟨?_, ?_, ?_, ?_, ?_, ?_, ?_⟩ <;> (intro he; subst he; exact absurd h (by decide))

theorem jchars_cons_ne_rbracket (v : JsonVal) :
    ∃ c cs, jchars v = c :: cs ∧ c ≠ ']' := by
  cases v with
  | null => exact ⟨'n', _, rfl, by decide⟩
  | bool b =>
    cases b with
    | false => exact ⟨'f', _, rfl, by decide⟩
    | true => exact ⟨'t', _, rfl, by decide⟩
  | num n =>
    by_cases hn : n < 0
    · refine ⟨'-', natChars n.natAbs, ?_, by decide⟩
      simp [jchars, intChars, hn]
    · have hne := natChars_ne_nil n.toNat
      obtain ⟨c, cs, hcons⟩ : ∃ c cs, natChars n.toNat = c :: cs := by
        cases h : natChars n.toNat with
        | nil => exact absurd h hne
        | cons c cs => exact ⟨c, cs, rfl⟩
      have hc : c.isDigit = true := natChars_isDigit n.toNat c (by rw [hcons]; simp)
      refine ⟨c, cs, ?_, ?_⟩
      · simp [jchars, intChars, hn, hcons]
      · intro he; subst he; exact absurd hc (by decide)
  | str s => exact ⟨'"', _, rfl, by decide⟩
  | arr es => exact ⟨'[', _, rfl, by decide⟩
  | obj fs => exact ⟨'\x7b', _, rfl, by decide⟩

theorem jsizeL_le (es : List JsonVal)
    (h : ∀ e ∈ es, jsize e ≤ (jchars e).length) :
    jsizeL es ≤ (elemChars es).length + 1 := by
  induction es with
  | nil => simp [jsizeL, elemChars]
  | cons e es' ih =>
    have he := h e (by simp)
    cases es' with
    | nil => simp [jsizeL, elemChars]; omega
    | cons e2 es'' =>
      have ih' := ih (fun x hx => h x (by simp [hx]))
      show jsize e + jsizeL (e2 :: es'') ≤ (jchars e ++ ',' :: elemChars (e2 :: es'')).length + 1
      simp only [List.length_append, List.length_cons]
      omega

theorem jsizeF_le (fs : List (String × JsonVal))
    (h : ∀ kv ∈ fs, jsize kv.2 ≤ (jchars kv.2).length) :
    jsizeF fs ≤ (fieldChars fs).length + 1 := by
  induction fs with
  | nil => simp [jsizeF, fieldChars]
  | cons kv fs' ih =>
    obtain ⟨k, v⟩ := kv
    have he : jsize v ≤ (jchars v).length := h (k, v) (by simp)
    cases fs' with
    | nil =>
      show jsize v + jsizeF [] ≤ (('"' :: escChars k.data ++ ['"', ':']) ++ jchars v).length + 1
      simp only [jsizeF, List.length_append, List.length_cons, List.length_nil]
      omega
    | cons kv2 fs'' =>
      have ih' := ih (fun x hx => h x (by simp [hx]))
      show jsize v + jsizeF (kv2 :: fs'') ≤
        ((('"' :: escChars k.data ++ ['"', ':']) ++ jchars v) ++ ',' :: fieldChars (kv2 :: fs'')).length + 1
      simp only [List.length_append, List.length_cons, List.length_nil]
      omega

theorem jsize_le (v : JsonVal) : jsize v ≤ (jchars v).length := by
  induction v using JsonVal.inductionOn with
  | h0 => decide
  | h1 b => cases b <;> decide
  | h2 n =>
    show jsize (.num n) ≤ (intChars n).length
    have h1 : jsize (.num n) = 1 := rfl
    rw [h1]
    by_cases hn : n < 0
    · simp [intChars, hn]
    · simp only [intChars, if_neg hn]
      have := natChars_ne_nil n.toNat
      have := List.length_pos.mpr this
      omega
  | h3 s =>
    show jsize (.str s) ≤ ('"' :: escChars s.data ++ ['"']).length
    simp [jsize]
  | h4 es ih =>
    show 1 + jsizeL es ≤ ('[' :: elemChars es ++ [']']).length
    have := jsizeL_le es ih
    simp only [List.length_append, List.length_cons]
    simp only [List.length_nil, List.length_cons]
    omega
  | h5 fs ih =>
    show 1 + jsizeF fs ≤ ('\x7b' :: fieldChars fs ++ ['\x7d']).length
    have := jsizeF_le fs ih
    simp only [List.length_append, List.length_cons]
    simp only [List.length_nil, List.length_cons]
    omega

/-- The printer/parser roundtrip at the character level: parsing a printed
value consumes exactly the printed characters, for any big-enough fuel and
any following input that does not begin with a digit. -/
theorem parseV_round (v : JsonVal) :
    ∀ fuel rest, jsize v ≤ fuel → noDigitHead rest →
      parseV fuel (jchars v ++ rest) = some (v, rest) := by
  induction v using JsonVal.inductionOn with
  | h0 =>
    intro fuel rest hf _
    obtain ⟨f, rfl⟩ : ∃ f, fuel = f + 1 := ⟨fuel - 1, by simp [jsize] at hf; omega⟩
    rfl
  | h1 b =>
    intro fuel rest hf _
    obtain ⟨f, rfl⟩ : ∃ f, fuel = f + 1 := ⟨fuel - 1, by simp [jsize] at hf; omega⟩
    cases b <;> rfl
  | h2 n =>
    intro fuel rest hf hr
    obtain ⟨f, rfl⟩ : ∃ f, fuel = f + 1 := ⟨fuel - 1, by simp [jsize] at hf; omega⟩
    by_cases hn : n < 0
    · have hj : jchars (.num n) = '-' :: natChars n.natAbs := by
        simp [jchars, intChars, hn]
      rw [hj, List.cons_append]
      show (parseDigits (natChars n.natAbs ++ rest)).map
        (fun p => (JsonVal.num (-(p.1 : Int)), p.2)) = some (JsonVal.num n, rest)
      rw [parseDigits_natChars _ _ hr]
      have habs : ((n.natAbs : Int)) = -n := Int.ofNat_natAbs_of_nonpos (le_of_lt hn)
      simp [habs]
    · have hne := natChars_ne_nil n.toNat
      obtain ⟨c, cs, hcons⟩ : ∃ c cs, natChars n.toNat = c :: cs := by
        cases h : natChars n.toNat with
        | nil => exact absurd h hne
        | cons c cs => exact ⟨c, cs, rfl⟩
      have hdig : c.isDigit = true := natChars_isDigit n.toNat c (by rw [hcons]; simp)
      obtain ⟨e1, e2, e3, e4, e5, e6, e7⟩ := isDigit_excludes hdig
      have hj : jchars (.num n) = c :: cs := by
        simp [jchars, intChars, hn, hcons]
      rw [hj, List.cons_append]
      simp only [parseV, if_neg e1, if_neg e2, if_neg e3, if_neg e4, if_neg e5, if_neg e6,
        if_neg e7, if_pos hdig]
      rw [← List.cons_append, ← hcons, parseDigits_natChars _ _ hr]
      simp
      omega
  | h3 s =>
    intro fuel rest hf _
    obtain ⟨f, rfl⟩ : ∃ f, fuel = f + 1 := ⟨fuel - 1, by simp [jsize] at hf; omega⟩
    have hj : jchars (.str s) ++ rest = '"' :: (escChars s.data ++ '"' :: rest) := by
      show ('"' :: escChars s.data ++ ['"']) ++ rest = _
      simp
    rw [hj]
    show (parseStrBody (escChars s.data ++ '"' :: rest)).map
      (fun p => (JsonVal.str (String.mk p.1), p.2)) = some (JsonVal.str s, rest)
    rw [parseStrBody_round]
    rfl
  | h4 es ih =>
    have elems : ∀ l : List JsonVal,
        (∀ e ∈ l, ∀ fuel rest, jsize e ≤ fuel → noDigitHead rest →
          parseV fuel (jchars e ++ rest) = some (e, rest)) →
        ∀ fuel rest', l ≠ [] → jsizeL l ≤ fuel →
          parseElems fuel (elemChars l ++ ']' :: rest') = some (l, rest') := by
      intro l
      induction l with
      | nil => intro _ _ _ hne _; exact absurd rfl hne
      | cons e l' ihl =>
        intro hP fuel rest' _ hsz
        have hp1 : 1 ≤ jsize e := jsize_pos e
        have hp2 : 1 ≤ jsizeL l' := jsizeL_pos l'
        obtain ⟨f', rfl⟩ : ∃ f', fuel = f' + 1 :=
          ⟨fuel - 1, by simp [jsizeL] at hsz; omega⟩
        have hsz' : jsize e + jsizeL l' ≤ f' + 1 := by simpa [jsizeL] using hsz
        cases l' with
        | nil =>
          have hv := hP e (by simp) f' (']' :: rest')
            (by simp [jsizeL] at hsz'; omega) (noDigitHead_cons _ (by decide))
          show (parseV f' (jchars e ++ ']' :: rest')).bind _ = some ([e], rest')
          rw [hv]
          rfl
        | cons e2 l'' =>
          have hq1 : 1 ≤ jsize e2 := jsize_pos e2
          have hq2 : 1 ≤ jsizeL l'' := jsizeL_pos l''
          have hszc : jsize e + (jsize e2 + jsizeL l'') ≤ f' + 1 := by
            simpa [jsizeL] using hsz'
          have hv := hP e (by simp) f' (',' :: (elemChars (e2 :: l'') ++ ']' :: rest'))
            (by omega) (noDigitHead_cons _ (by decide))
          have hrec := ihl (fun x hx => hP x (by simp [hx])) f' rest' (by simp)
            (by simp only [jsizeL]; omega)
          have hshape : elemChars (e :: e2 :: l'') ++ ']' :: rest' =
              jchars e ++ (',' :: (elemChars (e2 :: l'') ++ ']' :: rest')) := by
            show (jchars e ++ ',' :: elemChars (e2 :: l'')) ++ ']' :: rest' = _
            simp
          show (parseV f' (elemChars (e :: e2 :: l'') ++ ']' :: rest')).bind _
            = some (e :: e2 :: l'', rest')
          rw [hshape, hv]
          show (parseElems f' (elemChars (e2 :: l'') ++ ']' :: rest')).map _
            = some (e :: e2 :: l'', rest')
          rw [hrec]
          rfl
    intro fuel rest hf hr
    obtain ⟨f, rfl⟩ : ∃ f, fuel = f + 1 := ⟨fuel - 1, by simp [jsize] at hf; omega⟩
    cases es with
    | nil => rfl
    | cons e es' =>
      have hsz : jsizeL (e :: es') ≤ f := by
        simp [jsize] at hf
        omega
      have hinner := elems (e :: es') ih f rest (by simp) hsz
      have hshape : jchars (.arr (e :: es')) ++ rest =
          '[' :: (elemChars (e :: es') ++ ']' :: rest) := by
        show ('[' :: elemChars (e :: es') ++ [']']) ++ rest = _
        simp
      rw [hshape]
      obtain ⟨c0, cs0, hc0, hne0⟩ := jchars_cons_ne_rbracket e
      have hhead : ¬ (elemChars (e :: es') ++ ']' :: rest).head? = some ']' := by
        cases es' with
        | nil =>
          show ¬ (jchars e ++ ']' :: rest).head? = some ']'
          rw [hc0]
          simp [hne0]
        | cons e2 es'' =>
          show ¬ ((jchars e ++ ',' :: elemChars (e2 :: es'')) ++ ']' :: rest).head? = some ']'
          rw [hc0]
          simp [hne0]
      show (if (elemChars (e :: es') ++ ']' :: rest).head? = some ']'
          then some (JsonVal.arr [], (elemChars (e :: es') ++ ']' :: rest).tail)
          else (parseElems f (elemChars (e :: es') ++ ']' :: rest)).map
            fun p => (JsonVal.arr p.1, p.2))
        = some (JsonVal.arr (e :: es'), rest)
      rw [if_neg hhead, hinner]
      rfl
  | h5 fs ih =>
    have fields : ∀ l : List (String × JsonVal),
        (∀ kv ∈ l, ∀ fuel rest, jsize kv.2 ≤ fuel → noDigitHead rest →
          parseV fuel (jchars kv.2 ++ rest) = some (kv.2, rest)) →
        ∀ fuel rest', l ≠ [] → jsizeF l ≤ fuel →
          parseFields fuel (fieldChars l ++ '\x7d' :: rest') = some (l, rest') := by
      intro l
      induction l with
      | nil => intro _ _ _ hne _; exact absurd rfl hne
      | cons kv l' ihl =>
        obtain ⟨k, v⟩ := kv
        intro hP fuel rest' _ hsz
        have hp1 : 1 ≤ jsize v := jsize_pos v
        have hp2 : 1 ≤ jsizeF l' := jsizeF_pos l'
        obtain ⟨f', rfl⟩ : ∃ f', fuel = f' + 1 :=
          ⟨fuel - 1, by simp [jsizeF] at hsz; omega⟩
        have hsz' : jsize v + jsizeF l' ≤ f' + 1 := by simpa [jsizeF] using hsz
        cases l' with
        | nil =>
          have hv := hP (k, v) (by simp) f' ('\x7d' :: rest')
            (by show jsize v ≤ f'; simp [jsizeF] at hsz'; omega)
            (noDigitHead_cons _ (by decide))
          have hshape : fieldChars [(k, v)] ++ '\x7d' :: rest' =
              '"' :: (escChars k.data ++ '"' :: (':' :: (jchars v ++ '\x7d' :: rest'))) := by
            show (('"' :: escChars k.data ++ ['"', ':']) ++ jchars v) ++ '\x7d' :: rest' = _
            simp
          rw [hshape]
          show (parseStrBody (escChars k.data ++ '"' ::
              (':' :: (jchars v ++ '\x7d' :: rest')))).bind _
            = some ([(k, v)], rest')
          rw [parseStrBody_round]
          show (parseV f' (jchars v ++ '\x7d' :: rest')).bind _ = some ([(k, v)], rest')
          rw [hv]
          rfl
        | cons kv2 l'' =>
          have hq1 : 1 ≤ jsize kv2.2 := jsize_pos kv2.2
          have hq2 : 1 ≤ jsizeF l'' := jsizeF_pos l''
          have hszc : jsize v + (jsize kv2.2 + jsizeF l'') ≤ f' + 1 := by
            simpa [jsizeF] using hsz'
          have hv := hP (k, v) (by simp) f'
            (',' :: (fieldChars (kv2 :: l'') ++ '\x7d' :: rest'))
            (by show jsize v ≤ f'; omega) (noDigitHead_cons _ (by decide))
          have hrec := ihl (fun x hx => hP x (by simp [hx])) f' rest' (by simp)
            (by simp only [jsizeF]; omega)
          have hshape : fieldChars ((k, v) :: kv2 :: l'') ++ '\x7d' :: rest' =
              '"' :: (escChars k.data ++ '"' :: (':' ::
                (jchars v ++ ',' :: (fieldChars (kv2 :: l'') ++ '\x7d' :: rest')))) := by
            show ((('"' :: escChars k.data ++ ['"', ':']) ++ jchars v)
              ++ ',' :: fieldChars (kv2 :: l'')) ++ '\x7d' :: rest' = _
            simp
          rw [hshape]
          show (parseStrBody (escChars k.data ++ '"' :: (':' ::
              (jchars v ++ ',' :: (fieldChars (kv2 :: l'') ++ '\x7d' :: rest'))))).bind _
            = some ((k, v) :: kv2 :: l'', rest')
          rw [parseStrBody_round]
          show (parseV f' (jchars v ++ ',' ::
              (fieldChars (kv2 :: l'') ++ '\x7d' :: rest'))).bind _
            = some ((k, v) :: kv2 :: l'', rest')
          rw [hv]
          show (parseFields f' (fieldChars (kv2 :: l'') ++ '\x7d' :: rest')).map _
            = some ((k, v) :: kv2 :: l'', rest')
          rw [hrec]
          rfl
    intro fuel rest hf hr
    obtain ⟨f, rfl⟩ : ∃ f, fuel = f + 1 := ⟨fuel - 1, by simp [jsize] at hf; omega⟩
    cases fs with
    | nil => rfl
    | cons kv fs' =>
      have hsz : jsizeF (kv :: fs') ≤ f := by
        simp [jsize] at hf
        omega
      have hinner := fields (kv :: fs') ih f rest (by simp) hsz
      obtain ⟨k, v⟩ := kv
      have hshape : jchars (.obj ((k, v) :: fs')) ++ rest =
          '\x7b' :: (fieldChars ((k, v) :: fs') ++ '\x7d' :: rest) := by
        show ('\x7b' :: fieldChars ((k, v) :: fs') ++ ['\x7d']) ++ rest = _
        simp
      rw [hshape]
      have hhead : ¬ (fieldChars ((k, v) :: fs') ++ '\x7d' :: rest).head? = some '\x7d' := by
        cases fs' with
        | nil =>
          show ¬ ((('"' :: escChars k.data ++ ['"', ':']) ++ jchars v)
            ++ '\x7d' :: rest).head? = some '\x7d'
          simp
        | cons kv2 fs'' =>
          show ¬ (((('"' :: escChars k.data ++ ['"', ':']) ++ jchars v)
            ++ ',' :: fieldChars (kv2 :: fs'')) ++ '\x7d' :: rest).head? = some '\x7d'
          simp
      show (if (fieldChars ((k, v) :: fs') ++ '\x7d' :: rest).head? = some '\x7d'
          then some (JsonVal.obj [], (fieldChars ((k, v) :: fs') ++ '\x7d' :: rest).tail)
          else (parseFields f (fieldChars ((k, v) :: fs') ++ '\x7d' :: rest)).map
            fun p => (JsonVal.obj p.1, p.2))
        = some (JsonVal.obj ((k, v) :: fs'), rest)
      rw [if_neg hhead, hinner]
      rfl

/-- `JSON.parse` inverts `JSON.stringify` on every JSON-representable value. -/
theorem jparse_jstringify (v : JsonVal) : jparse (jstringify v) = some v := by
  have hlen := jsize_le v
  have h := parseV_round v ((jchars v).length + 1) [] (by omega) noDigitHead_nil
  rw [List.append_nil] at h
  show (match parseV ((jchars v).length + 1) (jchars v) with
    | some (v, []) => some v
    | _ => none) = some v
  rw [h]


/-- A truthy storage read is in particular a present (non-null) value. -/
theorem jsTruthy_isSome (o : Option JsonVal) (h : AuthStore.jsTruthy o = true) :
    o.isSome = true := by
  cases o with
  | none => simp [AuthStore.jsTruthy] at h
  | some v => rfl

/-- C2: for every reachable session state of the auth store — after any
sequence of login, register, logout, forgotPassword, initializeAuth,
clearError, setUser, setError, setLoading starting from the initial state —
the flag `isAuthenticated` equals `user != null`. -/
theorem reachable_isAuthenticated_iff_user (p : AuthState × SecStore) (h : Reachable p) :
    p.1.isAuthenticated = p.1.user.isSome := by
  induction h with
  | init sec => rfl
  | step op p hp ih =>
    obtain ⟨s, sec⟩ := p
    cases op with
    | login c now iso =>
      cases h' : mockAuthAPI.login c now iso with
      | ok pair => simp [applyOp, AuthStore.login, h']
      | error msg => simpa [applyOp, AuthStore.login, h'] using ih
    | register c now iso =>
      cases h' : mockAuthAPI.register c now iso with
      | ok pair => simp [applyOp, AuthStore.register, h']
      | error msg => simpa [applyOp, AuthStore.register, h'] using ih
    | logout remote =>
      cases remote with
      | ok u => simp [applyOp, AuthStore.logout]
      | error msg => simpa [applyOp, AuthStore.logout] using ih
    | forgotPassword e =>
      cases h' : mockAuthAPI.forgotPassword e with
      | ok b => simpa [applyOp, AuthStore.forgotPassword, h'] using ih
      | error msg => simpa [applyOp, AuthStore.forgotPassword, h'] using ih
    | initializeAuth =>
      by_cases hi : s.isInitialized = true
      · simpa [applyOp, AuthStore.initializeAuth, hi] using ih
      · simp only [applyOp, AuthStore.initializeAuth, hi, if_false, Bool.false_eq_true]
        by_cases ht : (AuthStore.jsTruthy
            (secureMMKVStorage.getItem Mmkv.StorageKeys.AUTH_TOKEN none sec)
          && AuthStore.jsTruthy
            (secureMMKVStorage.getItem Mmkv.StorageKeys.USER_DATA none sec)) = true
        · have husr : (secureMMKVStorage.getItem Mmkv.StorageKeys.USER_DATA none sec).isSome
              = true := jsTruthy_isSome _ (by
            have h2 := (Bool.and_eq_true _ _).mp ht
            exact h2.2)
          simp [ht, husr]
        · simp [ht]
    | clearError => simpa [applyOp, AuthStore.clearError] using ih
    | setUser u => simp [applyOp, AuthStore.setUser]
    | setError e => simpa [applyOp, AuthStore.setError] using ih
    | setLoading b => simpa [applyOp, AuthStore.setLoading] using ih

/-- Witness for C2: the invariant holds at the concrete reachable state
obtained by a successful login from the initial state. -/
theorem reachable_isAuthenticated_iff_user_witness :
    (applyOp (.login ⟨"admin", "password"⟩ 0 "2024-01-01T00:00:00.000Z")
        (authInitialState, emptySec)).1.isAuthenticated
      = (applyOp (.login ⟨"admin", "password"⟩ 0 "2024-01-01T00:00:00.000Z")
        (authInitialState, emptySec)).1.user.isSome :=
  reachable_isAuthenticated_iff_user _
    (Reachable.step _ _ (Reachable.init emptySec))

/-- C1 (amended): when the remote logout call resolves, `logout()` leaves
user = null, isAuthenticated = false, error = null and removes both
secure-namespace keys; when the remote call throws, the storage removals and
the state reset are skipped (they sit after the `await` in the `try` block):
the state keeps its user and only gains error = "Logout failed", with
isLoading cleared, and storage is untouched. -/
theorem logout_clears_session_only_when_remote_resolves
    (s : AuthState) (sec : SecStore) (msg : String) :
    ((AuthStore.logout (.ok ()) s sec).1.user = none
      ∧ (AuthStore.logout (.ok ()) s sec).1.isAuthenticated = false
      ∧ (AuthStore.logout (.ok ()) s sec).1.error = none
      ∧ (AuthStore.logout (.ok ()) s sec).1.isLoading = false
      ∧ (AuthStore.logout (.ok ()) s sec).2 Mmkv.StorageKeys.AUTH_TOKEN = none
      ∧ (AuthStore.logout (.ok ()) s sec).2 Mmkv.StorageKeys.USER_DATA = none)
    ∧ ((AuthStore.logout (.error msg) s sec).1
        = { s with error := some "Logout failed", isLoading := false }
      ∧ (AuthStore.logout (.error msg) s sec).2 = sec) :=
  ⟨⟨rfl, rfl, rfl, rfl, rfl, rfl⟩, rfl, rfl⟩

/-- Counterexample to C1 as stated: at a concrete logged-in state, when the
remote logout call throws, the user is still present, both secure keys are
still in storage, and error = "Logout failed" — not the claimed cleared
session. -/
theorem logout_remote_throw_keeps_session :
    (AuthStore.logout (.error "Network request failed") loggedInState loggedInSec).1.user.isSome
        = true
    ∧ (AuthStore.logout (.error "Network request failed") loggedInState
        loggedInSec).1.isAuthenticated = true
    ∧ ((AuthStore.logout (.error "Network request failed") loggedInState loggedInSec).2
        Mmkv.StorageKeys.AUTH_TOKEN).isSome = true
    ∧ ((AuthStore.logout (.error "Network request failed") loggedInState loggedInSec).2
        Mmkv.StorageKeys.USER_DATA).isSome = true
    ∧ (AuthStore.logout (.error "Network request failed") loggedInState loggedInSec).1.error
        = some "Logout failed" :=
  ⟨rfl, rfl, rfl, rfl, rfl⟩

/-- C3 (amended): `register` with a short username, or with mismatched
password/confirmation, returns false with the corresponding error recorded
and writes nothing to storage — but the rejection is produced INSIDE the
mocked remote authenticator, which is contacted unconditionally (the event
trace of every register call contains the remote call). -/
theorem register_validation_fails_inside_remote_call
    (c : RegisterCredentials) (now : Nat) (nowISO : String)
    (s : AuthState) (sec : SecStore) :
    (c.username.length < 3 →
      AuthStore.register c now nowISO s sec
        = (false,
            { s with error := some "Username must be at least 3 characters",
                     isLoading := false },
            sec, [AuthEvent.remoteRegisterCall]))
    ∧ (¬ c.username.length < 3 → c.password ≠ c.confirmPassword →
      AuthStore.register c now nowISO s sec
        = (false,
            { s with error := some "Passwords do not match",
                     isLoading := false },
            sec, [AuthEvent.remoteRegisterCall])) := by
  constructor
  · intro h
    simp only [AuthStore.register, mockAuthAPI.register, if_pos h]
  · intro h1 h2
    simp only [AuthStore.register, mockAuthAPI.register, if_neg h1, if_pos h2]

/-- Witness for C3 (amended): the mismatched-password rejection at concrete
inputs. -/
theorem register_validation_fails_inside_remote_call_witness :
    ¬ mismatchCredentials.username.length < 3
    ∧ mismatchCredentials.password ≠ mismatchCredentials.confirmPassword
    ∧ AuthStore.register mismatchCredentials 0 "2024-01-01T00:00:00.000Z"
        authInitialState emptySec
      = (false,
          { authInitialState with error := some "Passwords do not match",
                                  isLoading := false },
          emptySec, [AuthEvent.remoteRegisterCall]) :=
  ⟨by decide, by decide,
    (register_validation_fails_inside_remote_call mismatchCredentials 0
      "2024-01-01T00:00:00.000Z" authInitialState emptySec).2 (by decide) (by decide)⟩

/-- Counterexample to C3 as stated: at concrete mismatched credentials the
call fails with the password-mismatch error, yet the event trace shows the
remote authenticator WAS contacted — the rejection does not happen before
the remote call. -/
theorem register_mismatch_still_contacts_remote :
    (AuthStore.register mismatchCredentials 0 "2024-01-01T00:00:00.000Z"
        authInitialState emptySec).1 = false
    ∧ (AuthStore.register mismatchCredentials 0 "2024-01-01T00:00:00.000Z"
        authInitialState emptySec).2.1.error = some "Passwords do not match"
    ∧ (AuthStore.register mismatchCredentials 0 "2024-01-01T00:00:00.000Z"
        authInitialState emptySec).2.2.2 = [AuthEvent.remoteRegisterCall] :=
  ⟨rfl, rfl, rfl⟩

/-- C4: for every key and every JSON-serializable object value (JavaScript
`typeof v === "object"`: objects, arrays, and null — the values the adapter
JSON-stringifies), the standard-namespace adapter's `getItem` after
`setItem` returns a value deep-equal to the one stored. -/
theorem mmkv_setItem_getItem_roundtrip (k : String) (v : JsonVal)
    (fb : Option JsonVal) (σ : StdStore) (h : jsTypeofObject v = true) :
    mmkvStorage.getItem k fb (mmkvStorage.setItem k v σ) = some v := by
  have hparse := jparse_jstringify v
  cases v with
  | bool b => simp [jsTypeofObject] at h
  | num n => simp [jsTypeofObject] at h
  | str s => simp [jsTypeofObject] at h
  | null =>
    simp [mmkvStorage.setItem, mmkvStorage.getItem, stdGetString, mapUpdate, hparse]
  | arr es =>
    simp [mmkvStorage.setItem, mmkvStorage.getItem, stdGetString, mapUpdate, hparse]
  | obj fs =>
    simp [mmkvStorage.setItem, mmkvStorage.getItem, stdGetString, mapUpdate, hparse]

/-- Witness for C4: the round-trip at a concrete nested object. -/
theorem mmkv_setItem_getItem_roundtrip_witness :
    jsTypeofObject sampleObj = true
    ∧ mmkvStorage.getItem "some_key" none (mmkvStorage.setItem "some_key" sampleObj emptyStd)
        = some sampleObj :=
  ⟨rfl, mmkv_setItem_getItem_roundtrip "some_key" sampleObj none emptyStd rfl⟩

/-- C10: numbers and booleans stored through the standard-namespace
`setItem` go into the engine's typed (non-string) slots, so a subsequent
`getItem` — which reads only the string slot — returns the fallback (null
when none is given), not the stored value. -/
theorem mmkv_numbers_booleans_read_back_as_fallback (k : String) (n : Int) (b : Bool)
    (fb : Option JsonVal) (σ : StdStore) :
    mmkvStorage.getItem k fb (mmkvStorage.setItem k (.num n) σ) = fb
    ∧ mmkvStorage.getItem k fb (mmkvStorage.setItem k (.bool b) σ) = fb := by
  constructor <;>
    simp [mmkvStorage.setItem, mmkvStorage.getItem, stdGetString, mapUpdate]

/-- C5 (amended): from an uninitialized store, `initializeAuth` sets
Authenticated exactly when BOTH secure-namespace reads produce JavaScript-
truthy values (`if (token && userData)`); entries written by login/register
are always truthy, but a present entry whose parse is falsy (0, "", false,
null) is treated as absent.  When authenticated, the user is the parsed
stored record and error = null; otherwise user = null and error = null.  In
particular a pair with either key missing — e.g. after a crash between the
two login writes — is never treated as an authenticated session.  The flag
isInitialized is set and isLoading cleared in all cases. -/
theorem initializeAuth_authenticates_iff_both_reads_truthy
    (s : AuthState) (sec : SecStore) (h : s.isInitialized = false) :
    ((AuthStore.initializeAuth s sec).1.isAuthenticated
      = (AuthStore.jsTruthy (secureMMKVStorage.getItem Mmkv.StorageKeys.AUTH_TOKEN none sec)
        && AuthStore.jsTruthy (secureMMKVStorage.getItem Mmkv.StorageKeys.USER_DATA none sec)))
    ∧ ((AuthStore.initializeAuth s sec).1.isAuthenticated = true →
        (AuthStore.initializeAuth s sec).1.user
          = secureMMKVStorage.getItem Mmkv.StorageKeys.USER_DATA none sec)
    ∧ ((AuthStore.initializeAuth s sec).1.isAuthenticated = false →
        (AuthStore.initializeAuth s sec).1.user = none)
    ∧ (AuthStore.initializeAuth s sec).1.error = none
    ∧ ((sec Mmkv.StorageKeys.AUTH_TOKEN = none ∨ sec Mmkv.StorageKeys.USER_DATA = none) →
        (AuthStore.initializeAuth s sec).1.isAuthenticated = false
        ∧ (AuthStore.initializeAuth s sec).1.user = none)
    ∧ (AuthStore.initializeAuth s sec).1.isInitialized = true
    ∧ (AuthStore.initializeAuth s sec).1.isLoading = false := by
  have hfalse : ¬ s.isInitialized = true := by simp [h]
  by_cases ht : (AuthStore.jsTruthy
      (secureMMKVStorage.getItem Mmkv.StorageKeys.AUTH_TOKEN none sec)
    && AuthStore.jsTruthy
      (secureMMKVStorage.getItem Mmkv.StorageKeys.USER_DATA none sec)) = true
  · refine ⟨?_, ?_, ?_, ?_, ?_, ?_, ?_⟩ <;>
      simp [AuthStore.initializeAuth, hfalse, ht]
    constructor <;> intro hm <;>
      simp [secureMMKVStorage.getItem, hm, AuthStore.jsTruthy] at ht
  · refine ⟨?_, ?_, ?_, ?_, ?_, ?_, ?_⟩ <;>
      simp [AuthStore.initializeAuth, hfalse, ht]

/-- Witness for C5 (amended): restoring a concrete valid persisted session
(the exact pair a successful login writes) authenticates with the stored
user, and the token read back is the raw token string. -/
theorem initializeAuth_authenticates_iff_both_reads_truthy_witness :
    authInitialState.isInitialized = false
    ∧ (AuthStore.initializeAuth authInitialState loggedInSec).1.isAuthenticated
        = (AuthStore.jsTruthy (secureMMKVStorage.getItem Mmkv.StorageKeys.AUTH_TOKEN
            none loggedInSec)
          && AuthStore.jsTruthy (secureMMKVStorage.getItem Mmkv.StorageKeys.USER_DATA
            none loggedInSec))
    ∧ (AuthStore.initializeAuth authInitialState loggedInSec).1.error = none :=
  ⟨rfl,
    (initializeAuth_authenticates_iff_both_reads_truthy authInitialState loggedInSec rfl).1,
    (initializeAuth_authenticates_iff_both_reads_truthy authInitialState
      loggedInSec rfl).2.2.2.1⟩

/-- Counterexample to C5 as stated: a secure namespace in which BOTH the
auth-token and user-data entries are present, yet `initializeAuth` from an
uninitialized store sets Unauthenticated, because the stored token "0"
parses to the falsy number 0 — presence of both keys is not sufficient. -/
theorem initializeAuth_present_keys_not_authenticated :
    (falsyTokenSec Mmkv.StorageKeys.AUTH_TOKEN).isSome = true
    ∧ (falsyTokenSec Mmkv.StorageKeys.USER_DATA).isSome = true
    ∧ authInitialState.isInitialized = false
    ∧ (AuthStore.initializeAuth authInitialState falsyTokenSec).1.isAuthenticated = false
    ∧ (AuthStore.initializeAuth authInitialState falsyTokenSec).1.user = none :=
  ⟨rfl, rfl, rfl, rfl, rfl⟩

/-- C6: a second `initializeAuth` — the first call always leaves the
isInitialized flag set, whatever branch it took — performs no storage reads
(empty read trace) and returns the state unchanged. -/
theorem initializeAuth_second_call_noop (s : AuthState) (sec sec2 : SecStore) :
    AuthStore.initializeAuth (AuthStore.initializeAuth s sec).1 sec2
      = ((AuthStore.initializeAuth s sec).1, []) := by
  have hinit : (AuthStore.initializeAuth s sec).1.isInitialized = true := by
    by_cases hi : s.isInitialized = true
    · simp [AuthStore.initializeAuth, hi]
    · simp [AuthStore.initializeAuth, hi]
  generalize (AuthStore.initializeAuth s sec).1 = r at hinit ⊢
  simp [AuthStore.initializeAuth, hinit]

/-- C7: `isSecureKey` is exactly membership in the fixed four-key allow-list
(auth token, refresh token, user data, biometric flag), and for every key the
four keyed-storage operations act on the namespace this pure function of the
key selects: on an allow-listed key the standard namespace is neither
written nor read; on any other key the secure namespace is neither written
nor read.  Callers never pass a namespace. -/
theorem storage_ops_route_by_isSecureKey (k : String) (v : JsonVal) (fb : JsonVal)
    (std std' : StdStore) (sec sec' : SecStore) :
    (isSecureKey k = true ↔
      (k = Types.StorageKeys.AUTH_TOKEN ∨ k = Types.StorageKeys.REFRESH_TOKEN ∨
        k = Types.StorageKeys.USER_DATA ∨ k = Types.StorageKeys.BIOMETRIC_ENABLED))
    ∧ (isSecureKey k = true →
        (setStorageItem k v (std, sec)).2.1 = std
        ∧ (setStorageItem k v (std, sec)).2.2 = (setStorageItem k v (std', sec)).2.2
        ∧ getStorageItem k fb (std, sec) = getStorageItem k fb (std', sec)
        ∧ (removeStorageItem k (std, sec)).2.1 = std
        ∧ (removeStorageItem k (std, sec)).2.2 = (removeStorageItem k (std', sec)).2.2
        ∧ hasStorageItem k (std, sec) = hasStorageItem k (std', sec))
    ∧ (isSecureKey k = false →
        (setStorageItem k v (std, sec)).2.2 = sec
        ∧ (setStorageItem k v (std, sec)).2.1 = (setStorageItem k v (std, sec')).2.1
        ∧ getStorageItem k fb (std, sec) = getStorageItem k fb (std, sec')
        ∧ (removeStorageItem k (std, sec)).2.2 = sec
        ∧ (removeStorageItem k (std, sec)).2.1 = (removeStorageItem k (std, sec')).2.1
        ∧ hasStorageItem k (std, sec) = hasStorageItem k (std, sec')) := by
  refine ⟨by simp [isSecureKey], fun hk => ?_, fun hk => ?_⟩
  · refine ⟨?_, ?_, ?_, ?_, ?_, ?_⟩ <;>
      simp [setStorageItem, getStorageItem, removeStorageItem, hasStorageItem, hk]
  · refine ⟨?_, ?_, ?_, ?_, ?_, ?_⟩ <;>
      simp [setStorageItem, getStorageItem, removeStorageItem, hasStorageItem, hk]

/-- Witness for C7: the allow-listed key "auth_token" writes only the secure
namespace; the non-listed key "theme" writes only the standard namespace. -/
theorem storage_ops_route_by_isSecureKey_witness :
    isSecureKey "auth_token" = true
    ∧ isSecureKey "theme" = false
    ∧ (setStorageItem "auth_token" (.str "tok") (emptyStd, emptySec)).2.1 = emptyStd
    ∧ (setStorageItem "theme" (.str "dark") (emptyStd, emptySec)).2.2 = emptySec :=
  ⟨by decide, by decide,
    ((storage_ops_route_by_isSecureKey "auth_token" (.str "tok") JsonVal.null
      emptyStd emptyStd emptySec emptySec).2.1 (by decide)).1,
    ((storage_ops_route_by_isSecureKey "theme" (.str "dark") JsonVal.null
      emptyStd emptyStd emptySec emptySec).2.2 (by decide)).1⟩

/-- C8: `login` with admin/password returns true, sets the Authenticated
state whose user record carries username "admin", clears the error, persists
the token and the stringified user to the secure namespace, and clears
isLoading; with any other credential pair, starting Unauthenticated, it
returns false, leaves user = null and isAuthenticated = false, records the
invalid-credentials message, leaves storage untouched, and clears isLoading. -/
theorem login_admin_succeeds_others_fail (now : Nat) (nowISO : String)
    (s : AuthState) (sec : SecStore) (c : LoginCredentials) :
    ((AuthStore.login ⟨"admin", "password"⟩ now nowISO s sec).1 = true
      ∧ (AuthStore.login ⟨"admin", "password"⟩ now nowISO s sec).2.1.user
          = some (mockAuthAPI.loginUser "admin" nowISO)
      ∧ jField (mockAuthAPI.loginUser "admin" nowISO) "username" = some (.str "admin")
      ∧ (AuthStore.login ⟨"admin", "password"⟩ now nowISO s sec).2.1.isAuthenticated = true
      ∧ (AuthStore.login ⟨"admin", "password"⟩ now nowISO s sec).2.1.error = none
      ∧ (AuthStore.login ⟨"admin", "password"⟩ now nowISO s sec).2.1.isLoading = false
      ∧ (AuthStore.login ⟨"admin", "password"⟩ now nowISO s sec).2.2 Mmkv.StorageKeys.AUTH_TOKEN
          = some ("mock-jwt-token-" ++ numToString now)
      ∧ (AuthStore.login ⟨"admin", "password"⟩ now nowISO s sec).2.2 Mmkv.StorageKeys.USER_DATA
          = some (jstringify (mockAuthAPI.loginUser "admin" nowISO)))
    ∧ (¬ (c.username = "admin" ∧ c.password = "password") →
        s.user = none → s.isAuthenticated = false →
        (AuthStore.login c now nowISO s sec).1 = false
        ∧ (AuthStore.login c now nowISO s sec).2.1.user = none
        ∧ (AuthStore.login c now nowISO s sec).2.1.isAuthenticated = false
        ∧ (AuthStore.login c now nowISO s sec).2.1.error
            = some ERROR_MESSAGES.AUTH.INVALID_CREDENTIALS
        ∧ (AuthStore.login c now nowISO s sec).2.1.isLoading = false
        ∧ (AuthStore.login c now nowISO s sec).2.2 = sec) := by
  constructor
  · exact ⟨rfl, rfl, rfl, rfl, rfl, rfl, rfl, rfl⟩
  · intro h1 h2 h3
    refine ⟨?_, ?_, ?_, ?_, ?_, ?_⟩ <;>
      simp [AuthStore.login, mockAuthAPI.login, h1, h2, h3]

/-- Witness for C8: the failing side at the concrete pair x/y from the
initial state (the succeeding side is hypothesis-free). -/
theorem login_admin_succeeds_others_fail_witness :
    ¬ (("x" : String) = "admin" ∧ ("y" : String) = "password")
    ∧ (AuthStore.login ⟨"x", "y"⟩ 7 "2024-01-01T00:00:00.000Z"
        authInitialState emptySec).1 = false
    ∧ (AuthStore.login ⟨"x", "y"⟩ 7 "2024-01-01T00:00:00.000Z"
        authInitialState emptySec).2.1.error
        = some ERROR_MESSAGES.AUTH.INVALID_CREDENTIALS :=
  ⟨by decide,
    ((login_admin_succeeds_others_fail 7 "2024-01-01T00:00:00.000Z"
      authInitialState emptySec ⟨"x", "y"⟩).2 (by decide) rfl rfl).1,
    ((login_admin_succeeds_others_fail 7 "2024-01-01T00:00:00.000Z"
      authInitialState emptySec ⟨"x", "y"⟩).2 (by decide) rfl rfl).2.2.2.1⟩

/-- C9: the route-guard decision function — for every allow-list
configuration — issues no command while loading; replaces to the sign-in
route when there is no user outside the auth group; replaces to the home
route when a user is present inside the auth group; and every command it
can ever issue is a replace, never a push. -/
theorem useProtectedRoute_guard (user : Option JsonVal) (isLoading : Bool)
    (segments allowedPages : List String) :
    (isLoading = true → useProtectedRoute user isLoading segments allowedPages = none)
    ∧ (isLoading = false → user = none → ¬ segments.head? = some "(auth)" →
        useProtectedRoute user isLoading segments allowedPages
          = some (.replace ROUTES.AUTH.SIGNIN))
    ∧ (isLoading = false → user.isSome = true → segments.head? = some "(auth)" →
        useProtectedRoute user isLoading segments allowedPages
          = some (.replace ROUTES.TABS.HOME))
    ∧ (∀ r, useProtectedRoute user isLoading segments allowedPages ≠ some (.push r)) := by
  refine ⟨?_, ?_, ?_, ?_⟩
  · intro h
    simp [useProtectedRoute, h]
  · intro h1 h2 h3
    simp [useProtectedRoute, h1, h2, h3]
  · intro h1 h2 h3
    have h2' : ¬ user = none := by
      cases user <;> simp_all
    simp [useProtectedRoute, h1, h2, h2', h3]
  · intro r
    simp only [useProtectedRoute]
    split_ifs <;> simp

/-- Witness for C9: concrete decisions — loading suppresses navigation; a
signed-out user in the tabs area is replaced to sign-in; a signed-in user in
the auth area is replaced to home. -/
theorem useProtectedRoute_guard_witness :
    useProtectedRoute none true ["(tabs)"] [] = none
    ∧ useProtectedRoute none false ["(tabs)"] [] = some (.replace "/(auth)/signin")
    ∧ useProtectedRoute (some (mockAuthAPI.loginUser "admin" "t")) false
        ["(auth)", "signin"] [] = some (.replace "/(tabs)") :=
  ⟨(useProtectedRoute_guard none true ["(tabs)"] []).1 rfl,
    (useProtectedRoute_guard none false ["(tabs)"] []).2.1 rfl rfl (by decide),
    (useProtectedRoute_guard (some (mockAuthAPI.loginUser "admin" "t")) false
      ["(auth)", "signin"] []).2.2.1 rfl rfl (by decide)⟩

/-- Witness for C1 (amended): both halves at a concrete logged-in state. -/
theorem logout_clears_session_only_when_remote_resolves_witness :
    (AuthStore.logout (.ok ()) loggedInState loggedInSec).1.user = none
    ∧ (AuthStore.logout (.ok ()) loggedInState loggedInSec).2
        Mmkv.StorageKeys.AUTH_TOKEN = none
    ∧ (AuthStore.logout (.error "Network request failed") loggedInState loggedInSec).2
        = loggedInSec :=
  ⟨(logout_clears_session_only_when_remote_resolves loggedInState loggedInSec
      "Network request failed").1.1,
    (logout_clears_session_only_when_remote_resolves loggedInState loggedInSec
      "Network request failed").1.2.2.2.2.1,
    (logout_clears_session_only_when_remote_resolves loggedInState loggedInSec
      "Network request failed").2.2⟩

/-- Witness for C6: the second call is a read-free no-op after initializing
from a concrete populated namespace. -/
theorem initializeAuth_second_call_noop_witness :
    AuthStore.initializeAuth
        (AuthStore.initializeAuth authInitialState loggedInSec).1 emptySec
      = ((AuthStore.initializeAuth authInitialState loggedInSec).1, []) :=
  initializeAuth_second_call_noop authInitialState loggedInSec emptySec

/-- Witness for C10: a concrete number and boolean read back as the given
fallback and as null when no fallback is given. -/
theorem mmkv_numbers_booleans_read_back_as_fallback_witness :
    mmkvStorage.getItem "k" (some (.str "fb"))
        (mmkvStorage.setItem "k" (.num 42) emptyStd) = some (.str "fb")
    ∧ mmkvStorage.getItem "k" none
        (mmkvStorage.setItem "k" (.bool true) emptyStd) = none :=
  ⟨(mmkv_numbers_booleans_read_back_as_fallback "k" 42 true
      (some (.str "fb")) emptyStd).1,
    (mmkv_numbers_booleans_read_back_as_fallback "k" 42 true none emptyStd).2⟩
